import Mathlib

/-!
Verification of the Phish data downloader scripts
(`scripts/fetch_phish_data.py` and `scripts/fetch_phish_data_genuine.py`)
against their natural-language specification.

The Python scripts are shallowly embedded: dictionaries coming from the
JSON API become structures whose fields are `Option`-valued (a missing
dictionary key is `none`, and `d.get(k, default)` becomes `Option.getD`);
Python string comparison becomes an explicit code-point lexicographic
comparison; the `song_stats` Python dict becomes an association list with
Python's insertion semantics (first-insertion position, last value wins);
file writes become an explicit list of `WriteEvent`s; `datetime.now()`
becomes explicit `today` / `currentYear` / `now` parameters; the network
is an oracle function returning `Except`.
-/

set_option autoImplicit false

namespace PhishData

universe u

/-! ### Python string primitives -/

/-- Lowercase a string character by character, as Python `str.lower` does
on the ASCII song names this repository handles. -/
def pyLower (s : String) : String :=
  String.mk (s.data.map Char.toLower)

/-- Code-point lexicographic `<=` on character lists: the order CPython
uses for `str` comparison (`showdate <= today` in the scripts). -/
def pyStrLeAux : List Char → List Char → Bool
  | [], _ => true
  | _ :: _, [] => false
  | a :: as, b :: bs =>
    if a.val < b.val then true
    else if b.val < a.val then false
    else pyStrLeAux as bs

/-- Python's `s <= t` on strings. -/
def pyStrLe (s t : String) : Bool :=
  pyStrLeAux s.data t.data

/-- Does `needle` occur at the head of `hay`? (helper for substring search). -/
def listPre : List Char → List Char → Bool
  | [], _ => true
  | _ :: _, [] => false
  | a :: as, b :: bs => a == b && listPre as bs

/-- Does `needle` occur anywhere inside `hay`? (helper for substring search). -/
def listSub (needle : List Char) : List Char → Bool
  | [] => listPre needle []
  | c :: t => listPre needle (c :: t) || listSub needle (t)

/-- Python's `needle in hay` substring test on strings. -/
def pyInStr (needle hay : String) : Bool :=
  listSub needle.data hay.data

/-- Python's `any(j in name for j in subs)`. -/
def anySub (subs : List String) (name : String) : Bool :=
  subs.any (fun j => pyInStr j name)

/-- Replace every occurrence of the character `c` by the string `r`
(character-level model of Python `str.replace` for one-character needles,
the only form the scripts use). -/
def replChar (c : Char) (r : List Char) : List Char → List Char
  | [] => []
  | a :: t => (if a = c then r else [a]) ++ replChar c r t

/-- Python `s.replace(c, r)` for a one-character needle `c`. -/
def pyReplaceChar (s : String) (c : Char) (r : String) : String :=
  String.mk (replChar c r.data s.data)

/-- The apostrophe character, written via its code point. -/
def apos : Char := Char.ofNat 39

/-! ### Data model

Raw API records.  Every field mirrors one dictionary key the scripts
read; a field is `Option`-valued because the JSON dictionary may lack
the key (`show.get('artistid')` is `None` when absent). -/

/-- A raw show record from the `/shows` endpoint, with exactly the keys
the scripts access. -/
structure Show where
  showid : Option Nat := none
  showdate : Option String := none
  venue : Option String := none
  city : Option String := none
  state : Option String := none
  country : Option String := none
  setlistnotes : Option String := none
  tour_name : Option String := none
  tourid : Option Nat := none
  artistid : Option Int := none
  artist_name : Option String := none
  deriving Repr, DecidableEq

/-- A raw song catalog record from the `/songs` endpoint. -/
structure SongEntry where
  song : Option String := none
  times_played : Option Int := none
  debut : Option String := none
  last_played : Option String := none
  gap : Option Int := none
  deriving Repr, DecidableEq

/-- The tracked-artist predicate used by every script:
`show.get('artistid') == 1 or show.get('artist_name') == 'Phish'`. -/
def trackedB (s : Show) : Bool :=
  s.artistid == some 1 || s.artist_name == some "Phish"

/-! ### Output schema (`processed-data.json`) -/

/-- A `longestJam` record (the synthetic generator's output shape in
`fetch_phish_data.py`; the genuine script always emits `None` here). -/
structure JamRec where
  length : Rat
  date : String
  venue : String
  city : String
  state : String
  showid : Nat
  deriving Repr, DecidableEq

/-- One element of the output `songs` list, as built by
`create_processed_data` in `fetch_phish_data_genuine.py`. -/
structure ProcessedSong where
  name : String
  slug : String
  timesPlayed : Int
  firstPlayed : Option String
  lastPlayed : Option String
  gap : Int
  averageLength : Option Rat
  tags : List String
  longestJam : Option JamRec
  deriving Repr, DecidableEq

/-- One element of the output `shows` list (genuine script's projection;
it carries the two extra tour fields the synthetic variant omits). -/
structure ProcessedShow where
  showid : Option Nat
  date : Option String
  venue : String
  city : String
  state : String
  country : String
  setlistnotes : String
  tour_name : String
  tourid : Option Nat
  songs : List Nat
  deriving Repr, DecidableEq

/-- The output `metadata` object. -/
structure Metadata where
  totalSongs : Nat
  totalShows : Nat
  lastUpdated : String
  dataSource : String
  note : String
  deriving Repr, DecidableEq

/-- The whole `processed-data.json` document. -/
structure ProcessedData where
  songs : List ProcessedSong
  shows : List ProcessedShow
  metadata : Metadata
  deriving Repr, DecidableEq

/-! ### Slugs

`fetch_phish_data.py` line 522 derives the slug with four chained
replaces; `fetch_phish_data_genuine.py` line 231 adds two more that
strip parentheses. -/

/-- Slug as computed by `fetch_phish_data.py`:
`name.lower().replace(' ', '-').replace("'", '').replace(',', '').replace('.', '')`. -/
def slug_fetch (name : String) : String :=
  pyReplaceChar (pyReplaceChar (pyReplaceChar (pyReplaceChar (pyLower name) ' ' "-") apos "") ',' "") '.' ""

/-- Slug as computed by `fetch_phish_data_genuine.py`: the same chain
continued with `.replace('(', '').replace(')', '')`. -/
def slug_genuine (name : String) : String :=
  pyReplaceChar (pyReplaceChar (slug_fetch name) '(' "") ')' ""

/-- Per-character action of the spec's slug rule: strip apostrophe,
comma, period and both parentheses; turn a space into `-`; keep
everything else. -/
def slugStep (a : Char) : Option Char :=
  if a = apos ∨ a = ',' ∨ a = '.' ∨ a = '(' ∨ a = ')' then none
  else if a = ' ' then some '-' else some a

/-- Slug as the specification (§4.5) words it: lowercase the name,
replace spaces by `-`, and strip each of apostrophe, comma, period,
`(` and `)` in one pass.  Used only to compare against the script
definitions above. -/
def slugSpec (name : String) : String :=
  String.mk ((pyLower name).data.filterMap slugStep)

/-! ### Tag generation (`fetch_phish_data.py`, `generate_tags`) -/

/-- The `jam_vehicles` substring list of `generate_tags`, transcribed
verbatim (duplicates included). -/
def jam_vehicles : List String :=
  ["you enjoy myself", "tweezer", "ghost", "simple", "piper", "light", "sand",
   "rock and roll", "chalk dust torture", "down with disease", "crosseyed and painless",
   "bathtub gin", "runaway jim", "stash", "david bowie", "harry hood", "character zero",
   "wolfmans brother", "antelope", "mikes song", "weekapaug groove", "also sprach zarathustra",
   "slave to the traffic light", "possum", "maze", "divided sky", "reba", "wilson",
   "split open and melt", "suzy greenberg", "bouncing around the room", "lawn boy",
   "foam", "rift", "sample in a jar", "julius", "sparkle", "guelah papyrus",
   "cavern", "golgi apparatus", "fluffhead", "fee", "ac/dc bag", "the lizards",
   "the sloth", "dinner and a movie", "ya mar", "punch you in the eye",
   "colonel forbins ascent", "the famous mockingbird", "icculus", "haleys comet",
   "the oh kee pa ceremony", "cities", "kill devil falls", "ocelot", "stealing time from the faulty plan",
   "twenty years later", "backwards down the number line", "time turns elastic",
   "drowned", "wading in the velvet sea", "guyute", "free", "strange design",
   "train song", "farmhouse", "heavy things", "back on the train", "first tube",
   "limb by limb", "birds of a feather", "roggae", "water in the sky", "twist",
   "pebbles and marbles", "round room", "scents and subtle sounds", "walls of the cave",
   "mexican cousin", "anything but me", "access me", "seven below", "mountains in the mist",
   "waves", "thunderhead", "army of one", "prince caspian", "theme from the bottom",
   "strange design", "billy breathes", "dogs stole things", "taste", "cars trucks buses",
   "hello my baby", "brian and robert", "shafty", "dog faced boy", "demand",
   "vultures", "bouncing", "the mango song", "coil", "loving cup", "fire",
   "good times bad times", "while my guitar gently weeps", "jumping jack flash",
   "cant you hear me knocking", "shine a light", "satisfaction", "sympathy for the devil"]

/-- The `classics` substring list of `generate_tags`. -/
def classics : List String :=
  ["wilson", "golgi apparatus", "fluffhead", "you enjoy myself", "divided sky"]

/-- The `covers` substring list of `generate_tags`. -/
def covers : List String :=
  ["loving cup", "fire", "rock and roll", "good times bad times"]

/-- Frequency-bucket tags: the leading `if/elif` chain of `generate_tags`. -/
def freqTags (times_played : Int) : List String :=
  if times_played < 10 then ["Rare"]
  else if times_played > 200 then ["Frequent"]
  else if times_played > 100 then ["Common"]
  else []

/-- Type tag: `'Jam Vehicle'` when any `jam_vehicles` entry is a substring
of the lowercased name. -/
def typeTags (name : String) : List String :=
  if anySub jam_vehicles name then ["Jam Vehicle"] else []

/-- Classic tag. -/
def classicTags (name : String) : List String :=
  if anySub classics name then ["Classic"] else []

/-- Cover tag. -/
def coverTags (name : String) : List String :=
  if anySub covers name then ["Cover"] else []

/-- Era tag: the script appends `'1.0 Era'` iff `times_played > 300`;
the debut year is never consulted. -/
def eraTags (times_played : Int) : List String :=
  if times_played > 300 then ["1.0 Era"] else []

/-- `PhishDataDownloader.generate_tags` of `fetch_phish_data.py`:
the `tags` list accumulated by the successive appends, in order. -/
def generate_tags (song_name : String) (times_played : Int) : List String :=
  let name := pyLower song_name
  freqTags times_played ++ typeTags name ++ classicTags name
    ++ coverTags name ++ eraTags times_played

/-! ### Date parsing (`datetime.strptime(show_date, '%Y-%m-%d')`) -/

/-- Is every character a decimal digit? -/
def allDigits (s : String) : Bool :=
  s.data.all (fun c => c.isDigit)

/-- Decimal value of a digit string. -/
def digitsToNat (s : String) : Nat :=
  s.data.foldl (fun acc c => acc * 10 + (c.toNat - 48)) 0

/-- Gregorian leap-year rule, as `datetime` validates day-of-month. -/
def isLeap (y : Nat) : Bool :=
  (y % 4 == 0 && y % 100 != 0) || y % 400 == 0

/-- Days in a month, for `datetime`'s calendar validation. -/
def daysInMonth (y m : Nat) : Nat :=
  if m == 2 then (if isLeap y then 29 else 28)
  else if m == 4 || m == 6 || m == 9 || m == 11 then 30
  else 31

/-- `datetime.strptime(s, '%Y-%m-%d')`, returning the (year, month, day)
triple on success and `none` where Python raises `ValueError`:
the string must be three dash-separated digit groups (at most 4/2/2
digits), with a calendar-valid year, month and day. -/
def strptimeYMD (s : String) : Option (Nat × Nat × Nat) :=
  match s.splitOn "-" with
  | [ys, ms, ds] =>
    if allDigits ys && allDigits ms && allDigits ds
        && ys.length ≥ 1 && ys.length ≤ 4
        && ms.length ≥ 1 && ms.length ≤ 2
        && ds.length ≥ 1 && ds.length ≤ 2 then
      let y := digitsToNat ys
      let m := digitsToNat ms
      let d := digitsToNat ds
      if y ≥ 1 && m ≥ 1 && m ≤ 12 && d ≥ 1 && d ≤ daysInMonth y m then
        some (y, m, d)
      else none
    else none
  | _ => none

/-- The per-show test inside `fetch_yearly_shows`' year loop: the show
must have a nonempty `showdate` and be a tracked-artist show, its date
must `strptime`-parse (`ValueError` skips the show), the parsed year
must equal `year`, and the date must not be in the future. -/
def yearlyPred (year : Nat) (today : String) (s : Show) : Bool :=
  let show_date := s.showdate.getD ""
  let is_phish := trackedB s
  if show_date ≠ "" && is_phish then
    match strptimeYMD show_date with
    | some (yy, _, _) => yy == year && pyStrLe show_date today
    | none => false
  else false

/-! ### The `song_stats` dictionary

Python d[k] = v: if the key is present the value is replaced in place
(keeping the key's original position), otherwise the pair is appended. -/

/-- Python dict assignment `d[k] = v` on an association list. -/
def dictInsert {α : Type u} (k : String) (v : α) : List (String × α) → List (String × α)
  | [] => [(k, v)]
  | p :: t => if p.1 = k then (k, v) :: t else p :: dictInsert k v t

/-- First-match association lookup (`d[k]` / `k in d`). -/
def lookupA {α : Type u} : List (String × α) → String → Option α
  | [], _ => none
  | p :: t, n => if p.1 = n then some p.2 else lookupA t n

/-- The keys of an association list, in order. -/
def keysOf {α : Type u} (d : List (String × α)) : List String :=
  d.map Prod.fst

/-! ### `create_processed_data` (genuine script, lines 205-275)

The show-filtering lines (209-217) are textually identical in
`fetch_phish_data.py` (lines 498-506), so the filter definitions below
embed both. -/

/-- Line 211: `shows = [show for show in shows if show.get('showdate', '') <= today]`. -/
def filterPastShows (shows : List Show) (today : String) : List Show :=
  shows.filter (fun s => pyStrLe (s.showdate.getD "") today)

/-- Lines 214-217: keep only tracked-artist shows. -/
def filterPhishShows (shows : List Show) : List Show :=
  shows.filter trackedB

/-- Lines 245-256: the per-show output projection. -/
def projectShow (s : Show) : ProcessedShow :=
  { showid := s.showid
    date := s.showdate
    venue := s.venue.getD "Unknown Venue"
    city := s.city.getD ""
    state := s.state.getD ""
    country := s.country.getD "USA"
    setlistnotes := s.setlistnotes.getD ""
    tour_name := s.tour_name.getD ""
    tourid := s.tourid
    songs := [] }

/-- Lines 229-240: the genuine script's per-song record.
`gap` embeds `int(song.get('gap', 0)) if song.get('gap') else 0`;
`averageLength`, `tags` and `longestJam` are literally `None`, `[]`,
`None` in the source. -/
def buildSongRecordGenuine (s : SongEntry) : ProcessedSong :=
  { name := s.song.getD ""
    slug := slug_genuine (s.song.getD "")
    timesPlayed := s.times_played.getD 0
    firstPlayed := s.debut
    lastPlayed := s.last_played
    gap := match s.gap with
           | none => 0
           | some g => if g == 0 then 0 else g
    averageLength := none
    tags := []
    longestJam := none }

/-- Lines 222-240: the `song_stats` dict accumulated over the catalog. -/
def songStatsGenuine (songs : List SongEntry) : List (String × ProcessedSong) :=
  songs.foldl (fun d s => dictInsert (s.song.getD "") (buildSongRecordGenuine s) d) []

/-- `PhishDataDownloader.create_processed_data` of
`fetch_phish_data_genuine.py` (the file write is modeled separately in
`main_genuine`).  `today` stands for `datetime.now().strftime('%Y-%m-%d')`
and `now` for `datetime.now().isoformat()`. -/
def create_processed_data_genuine (songs : List SongEntry) (shows : List Show)
    (today now : String) : ProcessedData :=
  let shows1 := filterPastShows shows today
  let phish_shows := filterPhishShows shows1
  let song_stats := songStatsGenuine songs
  let processed_shows := phish_shows.map projectShow
  { songs := song_stats.map Prod.snd
    shows := processed_shows
    metadata :=
      { totalSongs := song_stats.length
        totalShows := processed_shows.length
        lastUpdated := now
        dataSource := "phish.net API v5 (genuine data only)"
        note := "Song lengths, tags, and longest jams removed - would require setlist analysis" } }

/-! ### `fetch_setlists_for_recent_shows` (lines 161-203)

`sorted(phish_shows, key=..., reverse=True)` is CPython's stable sort in
descending key order; a stable descending sort by a fixed key is unique,
so it is modeled by stable insertion (each element is inserted after the
already-placed elements whose key is `>=` its own). -/

/-- Insert `x` into a descending-sorted list, after all elements whose
key is greater than or equal to `key x` (stability). -/
def insDesc {α : Type u} (key : α → String) (x : α) : List α → List α
  | [] => [x]
  | y :: t => if pyStrLe (key x) (key y) then y :: insDesc key x t else x :: y :: t

/-- Stable descending sort by a string key: the result of
`sorted(l, key=key, reverse=True)`. -/
def sortDescBy {α : Type u} (key : α → String) (l : List α) : List α :=
  l.foldl (fun acc x => insDesc key x acc) []

/-- Lines 166-176: filter to past/current tracked-artist shows, sort by
date descending and keep the first `lim`. -/
def recentPhishShows (shows : List Show) (lim : Nat) (today : String) : List Show :=
  let phish_shows := shows.filter
    (fun s => pyStrLe (s.showdate.getD "") today && trackedB s)
  (sortDescBy (fun s => s.showdate.getD "") phish_shows).take lim

/-- A show as emitted by the setlist loop: `{**show, 'setlist': data}`
on success, the bare show on failure.  `σ` is the (uninspected) setlist
payload the API returns. -/
structure ShowWithSetlist (σ : Type u) where
  show_rec : Show
  setlist : Option σ
  deriving Repr, DecidableEq

/-- The body of the `for` loop (lines 179-196): one
`make_api_request(f"/setlists/get?showid={show.get('showid')}")` per
show; on success the payload is attached, on any exception the bare show
is appended and iteration continues.  The second component is the trace
of per-show API requests made (one `showid` per iteration, so a failure
is never retried). -/
def setlistLoop {σ : Type u} (oracle : Option Nat → Except String σ) :
    List Show → List (ShowWithSetlist σ) × List (Option Nat)
  | [] => ([], [])
  | s :: t =>
    let out : ShowWithSetlist σ :=
      match oracle s.showid with
      | .ok d => ⟨s, some d⟩
      | .error _ => ⟨s, none⟩
    let rest := setlistLoop oracle t
    (out :: rest.1, s.showid :: rest.2)

/-- `PhishDataDownloader.fetch_setlists_for_recent_shows`: returns the
`shows_with_setlists` list together with the request trace. -/
def fetch_setlists_for_recent_shows {σ : Type u} (oracle : Option Nat → Except String σ)
    (shows : List Show) (lim : Nat) (today : String) :
    List (ShowWithSetlist σ) × List (Option Nat) :=
  setlistLoop oracle (recentPhishShows shows lim today)

/-! ### Top-level run (`main`, genuine script lines 277-322)

File writes become `WriteEvent`s collected in order; the API is a pair
of `Except` results for the two listing endpoints plus a per-show
setlist oracle.  `fetch_phish_data.py`'s `main` has the same
error-handling structure (each fetch helper catches its own exceptions
and returns `[]`, and `main` returns `0` unless an exception escapes a
helper, which the modeled API errors never do). -/

/-- One file written by the run. -/
inductive WriteEvent (σ : Type u) where
  | songsJson (songs : List SongEntry)
  | showsJson (shows : List Show)
  | showsYear (year : Nat) (shows : List Show)
  | showsByYear (data : List (Nat × List Show))
  | recentSetlists (shows : List (ShowWithSetlist σ))
  | processedData (d : ProcessedData)
  deriving DecidableEq

/-- `fetch_all_songs` (lines 57-72): on success the raw list is written
to `songs.json` and returned; on any exception the error is printed,
nothing is written, and `[]` is returned. -/
def fetch_all_songs {σ : Type u} (songsR : Except String (List SongEntry)) :
    List SongEntry × List (WriteEvent σ) :=
  match songsR with
  | .ok songs => (songs, [.songsJson songs])
  | .error _ => ([], [])

/-- `fetch_all_shows` (lines 74-97): on success the tracked-artist
subset is written to `shows.json` and returned; on any exception
nothing is written and `[]` is returned. -/
def fetch_all_shows {σ : Type u} (showsR : Except String (List Show)) :
    List Show × List (WriteEvent σ) :=
  match showsR with
  | .ok all_shows => let phish_shows := all_shows.filter trackedB
                     (phish_shows, [.showsJson phish_shows])
  | .error _ => ([], [])

/-- `fetch_yearly_shows` (lines 99-159).  `cache` is the content of
`shows.json` if that file exists (it was written by `fetch_all_shows`);
on a cache miss the `/shows` endpoint is queried again, and a failure
there degrades to the empty list.  One `shows-<year>.json` is written
per year from `startYear` to the capped end year, then the combined
`shows-by-year.json`. -/
def fetch_yearly_shows {σ : Type u} (cache : Option (List Show))
    (showsR : Except String (List Show)) (startYear : Nat) (endYear : Option Nat)
    (currentYear : Nat) (today : String) :
    List (Nat × List Show) × List (WriteEvent σ) :=
  let endY := match endYear with
              | none => currentYear
              | some e => if e > currentYear then currentYear else e
  let all_shows := match cache with
                   | some l => l
                   | none => match showsR with
                             | .ok l => l
                             | .error _ => []
  let years := List.range' startYear (endY + 1 - startYear)
  let yearly_data := years.map (fun y => (y, all_shows.filter (yearlyPred y today)))
  (yearly_data,
   yearly_data.map (fun p => WriteEvent.showsYear p.1 p.2) ++ [.showsByYear yearly_data])

/-- `main` of `fetch_phish_data_genuine.py`: the four phases in order,
returning the exit status and the writes performed.  No modeled API
failure escapes a helper, so the `except` block around the phases never
fires and the function returns `0`. -/
def main_genuine {σ : Type u} (songsR : Except String (List SongEntry))
    (showsR : Except String (List Show)) (setlistO : Option Nat → Except String σ)
    (today : String) (currentYear : Nat) (now : String) :
    Nat × List (WriteEvent σ) :=
  let r1 := fetch_all_songs (σ := σ) songsR
  let songs := r1.1
  let r2 := fetch_all_shows (σ := σ) showsR
  let shows := r2.1
  let cache := match showsR with
               | .ok _ => some shows
               | .error _ => none
  let r3 := fetch_yearly_shows (σ := σ) cache showsR 2020 none currentYear today
  let w4 : List (WriteEvent σ) :=
    if shows.isEmpty then []
    else [WriteEvent.recentSetlists (fetch_setlists_for_recent_shows setlistO shows 20 today).1]
  let pd := create_processed_data_genuine songs shows today now
  (0, r1.2 ++ r2.2 ++ r3.2 ++ w4 ++ [.processedData pd])

/-! ### Length Parser

Modelled from the spec: the Length Parser (spec §4.1) belongs to the
setlist-analysis pipeline variant, which is not among the repository
files under `src/`; neither script there parses performance lengths.
The definitions below follow the spec's words: absent/null/empty input
gives `None`; a string containing a colon is split on the first colon
and both parts must parse as integers, giving `minutes + seconds/60`;
any other string is parsed as a plain decimal number; a bare number
parses to itself; nothing raises. -/

/-- A raw length field as found in setlist JSON: a string or a number. -/
inductive LenRaw where
  | str (s : String)
  | num (q : Rat)
  deriving Repr, DecidableEq

/-- Modelled from the spec: "both must parse as integers" — a decimal
integer literal with an optional leading minus sign. -/
def parseIntS (s : String) : Option Int :=
  match s.data with
  | [] => none
  | '-' :: rest =>
    if rest ≠ [] && rest.all Char.isDigit then
      some (-(digitsToNat (String.mk rest) : Int))
    else none
  | l =>
    if l.all Char.isDigit then some (digitsToNat s : Int) else none

/-- Modelled from the spec: "attempt to parse `raw` as a floating-point
number directly" — an optional minus sign, an integer part and an
optional fractional part, with at least one digit overall (exotic float
syntax such as exponents is out of scope). -/
def parseFloatS (s : String) : Option Rat :=
  let core : List Char → Option Rat := fun l =>
    match l.splitOn '.' with
    | [ip] => if ip ≠ [] && ip.all Char.isDigit then some (digitsToNat (String.mk ip) : Rat) else none
    | [ip, fp] =>
      if (ip ≠ [] || fp ≠ []) && ip.all Char.isDigit && fp.all Char.isDigit then
        some ((digitsToNat (String.mk ip) : Rat)
          + (digitsToNat (String.mk fp) : Rat) / ((10 : Rat) ^ fp.length))
      else none
    | _ => none
  match s.data with
  | '-' :: rest => (core rest).map (fun q => -q)
  | l => core l

/-- Split a character list at the first colon. -/
def splitColonAux : List Char → Option (List Char × List Char)
  | [] => none
  | c :: t =>
    if c = ':' then some ([], t)
    else (splitColonAux t).map (fun p => (c :: p.1, p.2))

/-- Split a string at the first colon: `none` when it has no colon. -/
def splitFirstColon (s : String) : Option (String × String) :=
  (splitColonAux s.data).map (fun p => (String.mk p.1, String.mk p.2))

/-- Modelled from the spec: the Length Parser,
`parse(raw) -> Optional<float minutes>` (spec §4.1). -/
def parseLength : Option LenRaw → Option Rat
  | none => none
  | some (.num q) => some q
  | some (.str s) =>
    if s = "" then none
    else
      match splitFirstColon s with
      | some (m, sec) =>
        match parseIntS m, parseIntS sec with
        | some a, some b => some ((a : Rat) + (b : Rat) / 60)
        | _, _ => none
      | none => parseFloatS s

/-- A tracked-artist show (artistid 1, name Phish) on a given date:
the shape of the mock shows the repository's tests build. -/
def mkTracked (d : String) : Show :=
  { showdate := some d, artistid := some 1, artist_name := some "Phish" }

/-- A tracked-artist show lacking a `showdate` key entirely. -/
def dlShow : Show :=
  { showdate := none, artistid := some 1, artist_name := some "Phish" }

/-!
## Theorems

Generic helper lemmas first, then one theorem per claim (with its
witness or counterexample where required).
-/

/-- Membership in a conditional singleton list. -/
theorem not_mem_iteSingleton {c : Prop} [Decidable c] {x y : String} (h : x ≠ y) :
    x ∉ (if c then [y] else ([] : List String)) := by
  split <;> simp_all

/-- Filtering a conditional singleton whose element fails the predicate. -/
theorem filter_iteSingleton_nil {c : Prop} [Decidable c] {y : String} {p : String → Bool}
    (h : p y = false) :
    (if c then [y] else ([] : List String)).filter p = [] := by
  split <;> simp [h]

/-- Membership in `generate_tags` splits over its five components. -/
theorem mem_generate_tags {x song_name : String} {tp : Int} :
    x ∈ generate_tags song_name tp ↔
      x ∈ freqTags tp ∨ x ∈ typeTags (pyLower song_name)
        ∨ x ∈ classicTags (pyLower song_name) ∨ x ∈ coverTags (pyLower song_name)
        ∨ x ∈ eraTags tp := by
  simp [generate_tags, List.mem_append]

/-- A string that is none of the three frequency tags is never in `freqTags`. -/
theorem not_mem_freqTags {x : String} (tp : Int)
    (h1 : x ≠ "Rare") (h2 : x ≠ "Frequent") (h3 : x ≠ "Common") :
    x ∉ freqTags tp := by
  unfold freqTags; split_ifs <;> simp_all

/-- `'Rare'` is produced exactly below ten plays. -/
theorem mem_freq_rare (tp : Int) : (("Rare" : String) ∈ freqTags tp) ↔ tp < 10 := by
  unfold freqTags
  by_cases h1 : tp < 10
  · simp [h1]
  · rw [if_neg h1]
    by_cases h2 : tp > 200
    · rw [if_pos h2]; simp only [List.mem_singleton]; exact iff_of_false (by decide) h1
    · rw [if_neg h2]
      by_cases h3 : tp > 100
      · rw [if_pos h3]; simp only [List.mem_singleton]; exact iff_of_false (by decide) h1
      · rw [if_neg h3]; exact iff_of_false (List.not_mem_nil _) h1

/-- `'Frequent'` is produced exactly above 200 plays. -/
theorem mem_freq_frequent (tp : Int) : (("Frequent" : String) ∈ freqTags tp) ↔ 200 < tp := by
  unfold freqTags
  by_cases h1 : tp < 10
  · rw [if_pos h1]; simp only [List.mem_singleton]
    exact iff_of_false (by decide) (by omega)
  · rw [if_neg h1]
    by_cases h2 : tp > 200
    · rw [if_pos h2]; simp [h2]
    · rw [if_neg h2]
      by_cases h3 : tp > 100
      · rw [if_pos h3]; simp only [List.mem_singleton]; exact iff_of_false (by decide) h2
      · rw [if_neg h3]; exact iff_of_false (List.not_mem_nil _) h2

/-- `'Common'` is produced exactly between 101 and 200 plays. -/
theorem mem_freq_common (tp : Int) :
    (("Common" : String) ∈ freqTags tp) ↔ (100 < tp ∧ tp ≤ 200) := by
  unfold freqTags
  by_cases h1 : tp < 10
  · rw [if_pos h1]; simp only [List.mem_singleton]
    exact iff_of_false (by decide) (by omega)
  · rw [if_neg h1]
    by_cases h2 : tp > 200
    · rw [if_pos h2]; simp only [List.mem_singleton]
      exact iff_of_false (by decide) (by omega)
    · rw [if_neg h2]
      by_cases h3 : tp > 100
      · rw [if_pos h3]
        exact iff_of_true (List.mem_singleton.mpr rfl) (by omega)
      · rw [if_neg h3]; exact iff_of_false (List.not_mem_nil _) (by omega)

/-- `freqTags` holds at most one tag. -/
theorem freqTags_length (tp : Int) : (freqTags tp).length ≤ 1 := by
  unfold freqTags; split_ifs <;> simp

/-- A tag other than the type/classic/cover/era tags can only come from
the frequency bucket. -/
theorem mem_generate_tags_freq_only {x name : String} {tp : Int}
    (hx1 : x ≠ "Jam Vehicle") (hx2 : x ≠ "Classic") (hx3 : x ≠ "Cover")
    (hx4 : x ≠ "1.0 Era") :
    (x ∈ generate_tags name tp) ↔ x ∈ freqTags tp := by
  rw [mem_generate_tags]
  constructor
  · rintro (hf | ht | hc | hv | he)
    · exact hf
    · exact absurd ht (by unfold typeTags; exact not_mem_iteSingleton hx1)
    · exact absurd hc (by unfold classicTags; exact not_mem_iteSingleton hx2)
    · exact absurd hv (by unfold coverTags; exact not_mem_iteSingleton hx3)
    · exact absurd he (by unfold eraTags; exact not_mem_iteSingleton hx4)
  · exact fun hf => Or.inl hf

/-- A tag other than the frequency/type/classic/cover tags can only come
from the era bucket. -/
theorem mem_generate_tags_era_only {x name : String} {tp : Int}
    (hx1 : x ≠ "Rare") (hx2 : x ≠ "Frequent") (hx3 : x ≠ "Common")
    (hx4 : x ≠ "Jam Vehicle") (hx5 : x ≠ "Classic") (hx6 : x ≠ "Cover") :
    (x ∈ generate_tags name tp) ↔ x ∈ eraTags tp := by
  rw [mem_generate_tags]
  constructor
  · rintro (hf | ht | hc | hv | he)
    · exact absurd hf (not_mem_freqTags tp hx1 hx2 hx3)
    · exact absurd ht (by unfold typeTags; exact not_mem_iteSingleton hx4)
    · exact absurd hc (by unfold classicTags; exact not_mem_iteSingleton hx5)
    · exact absurd hv (by unfold coverTags; exact not_mem_iteSingleton hx6)
    · exact he
  · exact fun he => Or.inr (Or.inr (Or.inr (Or.inr he)))

/-- C9: for every song and non-negative `timesPlayed` count, the
frequency tag assigned by `generate_tags` is `'Rare'` exactly when
`timesPlayed < 10`, `'Frequent'` exactly when `timesPlayed > 200`,
`'Common'` exactly when `100 < timesPlayed <= 200`, none otherwise, and
at most one frequency tag ever appears in the tag list. -/
theorem frequency_tags_exact (name : String) (tp : Int) (_h : 0 ≤ tp) :
    ((("Rare" : String) ∈ generate_tags name tp) ↔ tp < 10)
    ∧ ((("Frequent" : String) ∈ generate_tags name tp) ↔ 200 < tp)
    ∧ ((("Common" : String) ∈ generate_tags name tp) ↔ (100 < tp ∧ tp ≤ 200))
    ∧ ((generate_tags name tp).filter
        (fun t => t == "Rare" || t == "Frequent" || t == "Common")).length ≤ 1 := by
  refine ⟨?_, ?_, ?_, ?_⟩
  · rw [mem_generate_tags_freq_only (by decide) (by decide) (by decide) (by decide)]
    exact mem_freq_rare tp
  · rw [mem_generate_tags_freq_only (by decide) (by decide) (by decide) (by decide)]
    exact mem_freq_frequent tp
  · rw [mem_generate_tags_freq_only (by decide) (by decide) (by decide) (by decide)]
    exact mem_freq_common tp
  · have t1 : (typeTags (pyLower name)).filter
        (fun t => t == "Rare" || t == "Frequent" || t == "Common") = [] := by
      unfold typeTags; exact filter_iteSingleton_nil (by decide)
    have t2 : (classicTags (pyLower name)).filter
        (fun t => t == "Rare" || t == "Frequent" || t == "Common") = [] := by
      unfold classicTags; exact filter_iteSingleton_nil (by decide)
    have t3 : (coverTags (pyLower name)).filter
        (fun t => t == "Rare" || t == "Frequent" || t == "Common") = [] := by
      unfold coverTags; exact filter_iteSingleton_nil (by decide)
    have t4 : (eraTags tp).filter
        (fun t => t == "Rare" || t == "Frequent" || t == "Common") = [] := by
      unfold eraTags; exact filter_iteSingleton_nil (by decide)
    simp only [generate_tags, List.filter_append, t1, t2, t3, t4,
      List.append_nil, List.length_append, List.length_nil]
    calc ((freqTags tp).filter
            (fun t => t == "Rare" || t == "Frequent" || t == "Common")).length
        ≤ (freqTags tp).length := List.length_filter_le _ _
      _ ≤ 1 := freqTags_length tp

/-- C9 witness: the theorem applied at the concrete song `"x"` with five
plays. -/
theorem frequency_tags_exact_witness :
    (0 : Int) ≤ 5
    ∧ (((("Rare" : String) ∈ generate_tags "x" 5) ↔ (5 : Int) < 10)
      ∧ ((("Frequent" : String) ∈ generate_tags "x" 5) ↔ (200 : Int) < 5)
      ∧ ((("Common" : String) ∈ generate_tags "x" 5) ↔ ((100 : Int) < 5 ∧ (5 : Int) ≤ 200))
      ∧ ((generate_tags "x" 5).filter
          (fun t => t == "Rare" || t == "Frequent" || t == "Common")).length ≤ 1) :=
  ⟨by decide, frequency_tags_exact "x" 5 (by decide)⟩

/-- C6 counterexample: the claim says the era tag is a bucket of the
song's debut year (so a song debuting after 2009 carries `'3.0 Era'`).
The code never reads the debut: a song played 400 times gets
`'1.0 Era'` whatever its debut year, and a song played 50 times gets no
era tag at all, whatever its debut year. -/
theorem era_tag_debut_cex :
    generate_tags "xyz" 400 = ["Frequent", "1.0 Era"]
    ∧ generate_tags "xyz" 50 = [] := ⟨rfl, rfl⟩

/-- C6 (amended): the only era tag `generate_tags` produces is
`'1.0 Era'`, assigned exactly when `times_played > 300`; the debut-year
buckets `'2.0 Era'`, `'Hiatus'` and `'3.0 Era'` are never produced. -/
theorem era_tag_from_play_count (name : String) (tp : Int) :
    ((("1.0 Era" : String) ∈ generate_tags name tp) ↔ 300 < tp)
    ∧ ("2.0 Era" : String) ∉ generate_tags name tp
    ∧ ("Hiatus" : String) ∉ generate_tags name tp
    ∧ ("3.0 Era" : String) ∉ generate_tags name tp := by
  refine ⟨?_, ?_, ?_, ?_⟩
  · rw [mem_generate_tags_era_only (by decide) (by decide) (by decide) (by decide)
      (by decide) (by decide)]
    unfold eraTags
    by_cases h : tp > 300
    · simp [h]
    · simp [h]
  · rw [mem_generate_tags_era_only (by decide) (by decide) (by decide) (by decide)
      (by decide) (by decide)]
    unfold eraTags; exact not_mem_iteSingleton (by decide)
  · rw [mem_generate_tags_era_only (by decide) (by decide) (by decide) (by decide)
      (by decide) (by decide)]
    unfold eraTags; exact not_mem_iteSingleton (by decide)
  · rw [mem_generate_tags_era_only (by decide) (by decide) (by decide) (by decide)
      (by decide) (by decide)]
    unfold eraTags; exact not_mem_iteSingleton (by decide)

/-- `replChar` distributes over list append. -/
theorem replChar_append (c : Char) (r : List Char) (l₁ l₂ : List Char) :
    replChar c r (l₁ ++ l₂) = replChar c r l₁ ++ replChar c r l₂ := by
  induction l₁ with
  | nil => rfl
  | cons a t ih => simp [replChar, ih]

/-- The genuine script's six chained replaces equal the spec's single
`filterMap` pass, at the character-list level. -/
theorem slug_chain (l : List Char) :
    replChar ')' [] (replChar '(' [] (replChar '.' []
      (replChar ',' [] (replChar apos [] (replChar ' ' ['-'] l)))))
      = l.filterMap slugStep := by
  induction l with
  | nil => rfl
  | cons a t ih =>
    have hcons : ∀ (c : Char) (r : List Char) (x : Char) (xs : List Char),
        replChar c r (x :: xs) = replChar c r [x] ++ replChar c r xs := by
      intro c r x xs; simp [replChar]
    rw [hcons ' ' ['-'] a t, replChar_append, replChar_append, replChar_append,
      replChar_append, replChar_append, ih, List.filterMap_cons]
    by_cases h1 : a = ' '
    · subst h1; rfl
    · by_cases h2 : a = apos
      · subst h2; rfl
      · by_cases h3 : a = ','
        · subst h3; rfl
        · by_cases h4 : a = '.'
          · subst h4; rfl
          · by_cases h5 : a = '('
            · subst h5; rfl
            · by_cases h6 : a = ')'
              · subst h6; rfl
              · simp [replChar, slugStep, h1, h2, h3, h4, h5, h6]

/-- C8 counterexample: `fetch_phish_data.py`'s slug chain stops after
stripping apostrophe, comma and period, so parentheses survive; the
claimed rule (which also strips `(` and `)`) disagrees on any name
containing them. -/
theorem slug_fetch_paren_cex :
    slug_fetch "Divided Sky (Reprise)" = "divided-sky-(reprise)"
    ∧ slugSpec "Divided Sky (Reprise)" = "divided-sky-reprise"
    ∧ slug_fetch "Divided Sky (Reprise)" ≠ slugSpec "Divided Sky (Reprise)" :=
  ⟨rfl, rfl, by decide⟩

/-- C8 (amended): the claimed slug rule (lowercase, spaces to `-`,
apostrophe/comma/period/parentheses stripped) is exactly what
`fetch_phish_data_genuine.py` computes, for every name;
`fetch_phish_data.py` omits only the two parenthesis replaces. -/
theorem slug_genuine_matches_spec (name : String) :
    slug_genuine name = slugSpec name :=
  congrArg String.mk (slug_chain (name.data.map Char.toLower))

/-- C4: the processed output retains exactly the shows passing both
predicates (date not after `today`, tracked artist), and on the
yesterday/today/tomorrow triple of tracked shows it keeps exactly the
first two. -/
theorem show_filter_exact :
    (∀ (songs : List SongEntry) (shows : List Show) (today now : String),
      (create_processed_data_genuine songs shows today now).shows
        = (shows.filter
            (fun s => pyStrLe (s.showdate.getD "") today && trackedB s)).map projectShow)
    ∧ ∀ (d1 d2 d3 today : String), pyStrLe d1 today = true → pyStrLe d2 today = true →
        pyStrLe d3 today = false →
        (create_processed_data_genuine []
            [mkTracked d1, mkTracked d2, mkTracked d3] today "now").shows
          = [projectShow (mkTracked d1), projectShow (mkTracked d2)] := by
  constructor
  · intro songs shows today now
    show (filterPhishShows (filterPastShows shows today)).map projectShow = _
    unfold filterPhishShows filterPastShows
    rw [List.filter_filter]
    congr 1
    apply List.filter_congr
    intro s _
    exact Bool.and_comm _ _
  · intro d1 d2 d3 today h1 h2 h3
    show (filterPhishShows (filterPastShows _ today)).map projectShow = _
    have ht : ∀ d, trackedB (mkTracked d) = true := fun d => rfl
    have hd : ∀ d, (mkTracked d).showdate.getD "" = d := fun d => rfl
    simp [filterPhishShows, filterPastShows, List.filter_cons, hd, h1, h2, h3, ht]

/-- C4 witness: the theorem's triple instance at concrete dates. -/
theorem show_filter_exact_witness :
    pyStrLe "2026-10-11" "2026-10-12" = true
    ∧ pyStrLe "2026-10-12" "2026-10-12" = true
    ∧ pyStrLe "2026-10-13" "2026-10-12" = false
    ∧ (create_processed_data_genuine []
        [mkTracked "2026-10-11", mkTracked "2026-10-12", mkTracked "2026-10-13"]
        "2026-10-12" "now").shows
      = [projectShow (mkTracked "2026-10-11"), projectShow (mkTracked "2026-10-12")] :=
  ⟨by decide, by decide, by decide,
    show_filter_exact.2 "2026-10-11" "2026-10-12" "2026-10-13" "2026-10-12"
      (by decide) (by decide) (by decide)⟩

/-- C2 counterexample: the claim says a show lacking a date is excluded
from the processed output; in `create_processed_data` a tracked show
without a `showdate` key passes the date filter (`'' <= today` holds
lexicographically) and its projection appears in the output `shows`. -/
theorem dateless_show_retained_cex :
    projectShow dlShow
      ∈ (create_processed_data_genuine [] [dlShow] "2026-10-12" "now").shows := by
  decide

/-- C2 (amended): a show lacking a date (missing or empty `showdate`)
always passes `create_processed_data`'s date filter — the empty string
compares less-or-equal to any `today` — and, when tracked, is retained
in the processed output; only `fetch_yearly_shows`' per-year filter
excludes dateless shows explicitly (its truthiness test on `show_date`
fails before any date parsing). -/
theorem dateless_show_behavior :
    (∀ (today : String) (s : Show), (s.showdate = none ∨ s.showdate = some "") →
      pyStrLe (s.showdate.getD "") today = true
      ∧ ∀ year : Nat, yearlyPred year today s = false)
    ∧ ∀ (songs : List SongEntry) (shows : List Show) (today now : String) (s : Show),
        s ∈ shows → (s.showdate = none ∨ s.showdate = some "") → trackedB s = true →
        projectShow s ∈ (create_processed_data_genuine songs shows today now).shows := by
  constructor
  · intro today s hs
    have hempty : s.showdate.getD "" = "" := by rcases hs with h | h <;> simp [h]
    refine ⟨by rw [hempty]; rfl, ?_⟩
    intro year
    simp [yearlyPred, hempty]
  · intro songs shows today now s hmem hs htr
    have hempty : s.showdate.getD "" = "" := by rcases hs with h | h <;> simp [h]
    show projectShow s ∈ (filterPhishShows (filterPastShows shows today)).map projectShow
    apply List.mem_map_of_mem
    unfold filterPhishShows filterPastShows
    rw [List.mem_filter]
    refine ⟨?_, htr⟩
    rw [List.mem_filter]
    exact ⟨hmem, by rw [hempty]; rfl⟩

/-- C2 witness: the theorem applied to a concrete dateless tracked show. -/
theorem dateless_show_behavior_witness :
    (pyStrLe (dlShow.showdate.getD "") "2026-10-12" = true
      ∧ yearlyPred 2020 "2026-10-12" dlShow = false)
    ∧ projectShow dlShow
        ∈ (create_processed_data_genuine [] [dlShow] "2026-10-13" "now").shows :=
  ⟨⟨(dateless_show_behavior.1 "2026-10-12" dlShow (Or.inl rfl)).1,
    (dateless_show_behavior.1 "2026-10-12" dlShow (Or.inl rfl)).2 2020⟩,
   dateless_show_behavior.2 [] [dlShow] "2026-10-13" "now" dlShow
     (List.mem_singleton.mpr rfl) (Or.inl rfl) rfl⟩

/-- The setlist loop processes every show independently: the output has
one entry per input show in order, a failing oracle call yields the bare
show, and exactly one request is issued per show. -/
theorem setlistLoop_spec {σ : Type u} (oracle : Option Nat → Except String σ)
    (l : List Show) :
    (setlistLoop oracle l).1.length = l.length
    ∧ (∀ i : Nat, (setlistLoop oracle l).1[i]? = (l[i]?).map (fun s =>
        match oracle s.showid with
        | .ok d => ({ show_rec := s, setlist := some d } : ShowWithSetlist σ)
        | .error _ => { show_rec := s, setlist := none }))
    ∧ (setlistLoop oracle l).2 = l.map (fun s => s.showid) := by
  induction l with
  | nil =>
    refine ⟨rfl, ?_, rfl⟩
    intro i; cases i <;> rfl
  | cons s t ih =>
    refine ⟨?_, ?_, ?_⟩
    · simp only [setlistLoop, List.length_cons, ih.1]
    · intro i
      cases i with
      | zero =>
        cases hres : oracle s.showid <;> simp [setlistLoop, hres]
      | succ n =>
        simpa [setlistLoop] using ih.2.1 n
    · simp only [setlistLoop, List.map_cons, ih.2.2]

/-- C5: for every show sequence and setlist oracle, a failing per-show
setlist fetch degrades only that show (it is emitted without setlist
data), every remaining show is still processed (the output is
index-by-index determined, with one output per selected show), and each
show's setlist is requested exactly once (the request trace lists each
`showid` once, so a failure is not retried). -/
theorem setlist_error_degrades {σ : Type u} (oracle : Option Nat → Except String σ)
    (shows : List Show) (lim : Nat) (today : String) :
    (fetch_setlists_for_recent_shows oracle shows lim today).1.length
        = (recentPhishShows shows lim today).length
    ∧ (∀ i : Nat, (fetch_setlists_for_recent_shows oracle shows lim today).1[i]?
        = ((recentPhishShows shows lim today)[i]?).map (fun s =>
            match oracle s.showid with
            | .ok d => ({ show_rec := s, setlist := some d } : ShowWithSetlist σ)
            | .error _ => { show_rec := s, setlist := none }))
    ∧ (fetch_setlists_for_recent_shows oracle shows lim today).2
        = (recentPhishShows shows lim today).map (fun s => s.showid) :=
  setlistLoop_spec oracle (recentPhishShows shows lim today)

/-- C3 counterexample: the claim says a catalog fetch failure makes the
run terminate with a non-zero status; with the `/songs` request failing,
`main` completes and returns exit status 0 (the error is caught inside
`fetch_all_songs`, which returns the empty list). -/
theorem catalog_error_exit_cex :
    (main_genuine (σ := Nat) (Except.error "boom") (Except.ok [])
      (fun _ => Except.error "x") "2026-10-12" 2026 "now").1 = 0 := rfl

/-- A `songsJson` write can only come from a successful catalog fetch. -/
theorem mem_main_songsJson {σ : Type u} {l : List SongEntry}
    {songsR : Except String (List SongEntry)} {showsR : Except String (List Show)}
    {setlistO : Option Nat → Except String σ} {today : String} {currentYear : Nat}
    {now : String}
    (h : WriteEvent.songsJson l
        ∈ (main_genuine songsR showsR setlistO today currentYear now).2) :
    songsR = Except.ok l := by
  cases songsR <;> cases showsR <;>
    simp only [main_genuine, fetch_all_songs, fetch_all_shows, fetch_yearly_shows] at h <;>
    split at h <;>
    simp_all [List.mem_append, List.mem_map]

/-- A `showsJson` write can only come from a successful show-listing
fetch (and then holds its tracked-artist subset). -/
theorem mem_main_showsJson {σ : Type u} {l : List Show}
    {songsR : Except String (List SongEntry)} {showsR : Except String (List Show)}
    {setlistO : Option Nat → Except String σ} {today : String} {currentYear : Nat}
    {now : String}
    (h : WriteEvent.showsJson l
        ∈ (main_genuine songsR showsR setlistO today currentYear now).2) :
    ∃ all, showsR = Except.ok all ∧ l = all.filter trackedB := by
  cases songsR <;> cases showsR <;>
    simp only [main_genuine, fetch_all_songs, fetch_all_shows, fetch_yearly_shows] at h <;>
    split at h <;>
    simp_all [List.mem_append, List.mem_map]

/-- The run always ends by writing `processed-data.json`. -/
theorem main_writes_processedData {σ : Type u}
    (songsR : Except String (List SongEntry)) (showsR : Except String (List Show))
    (setlistO : Option Nat → Except String σ) (today : String) (currentYear : Nat)
    (now : String) :
    ∃ d, WriteEvent.processedData (σ := σ) d
        ∈ (main_genuine songsR showsR setlistO today currentYear now).2 := by
  refine ⟨create_processed_data_genuine (fetch_all_songs (σ := σ) songsR).1
      (fetch_all_shows (σ := σ) showsR).1 today now, ?_⟩
  simp [main_genuine, List.mem_append, List.mem_singleton]

/-- C3 (amended): an error on the catalog or show-listing fetch is
caught inside the fetch helper, which persists nothing for that fetch
and returns the empty list; the run continues to completion (it still
writes `processed-data.json`) and terminates with exit status 0 — not
with a non-zero status as claimed. -/
theorem fetch_error_nonfatal (σ : Type u) (e : String)
    (songsR : Except String (List SongEntry)) (showsR : Except String (List Show))
    (setlistO : Option Nat → Except String σ) (today : String) (currentYear : Nat)
    (now : String) :
    ((main_genuine (Except.error e) showsR setlistO today currentYear now).1 = 0
      ∧ (∀ l, WriteEvent.songsJson (σ := σ) l
          ∉ (main_genuine (Except.error e) showsR setlistO today currentYear now).2)
      ∧ ∃ d, WriteEvent.processedData (σ := σ) d
          ∈ (main_genuine (Except.error e) showsR setlistO today currentYear now).2)
    ∧ ((main_genuine songsR (Except.error e) setlistO today currentYear now).1 = 0
      ∧ (∀ l, WriteEvent.showsJson (σ := σ) l
          ∉ (main_genuine songsR (Except.error e) setlistO today currentYear now).2)
      ∧ ∃ d, WriteEvent.processedData (σ := σ) d
          ∈ (main_genuine songsR (Except.error e) setlistO today currentYear now).2) := by
  refine ⟨⟨rfl, ?_, main_writes_processedData _ _ _ _ _ _⟩,
          ⟨rfl, ?_, main_writes_processedData _ _ _ _ _ _⟩⟩
  · intro l hl
    exact absurd (mem_main_songsJson hl) (by simp)
  · intro l hl
    rcases mem_main_showsJson hl with ⟨all, hall, _⟩
    cases hall

/-- `dictInsert` preserves a property holding of every entry, provided
the inserted entry has it. -/
theorem dictInsert_forall {α : Type u} {P : String × α → Prop} {k : String} {v : α}
    {d : List (String × α)} (hd : ∀ p ∈ d, P p) (hv : P (k, v)) :
    ∀ p ∈ dictInsert k v d, P p := by
  induction d with
  | nil =>
    intro p hp
    rw [dictInsert, List.mem_singleton] at hp
    exact hp ▸ hv
  | cons q t ih =>
    intro p hp
    rw [dictInsert] at hp
    split at hp
    · rcases List.mem_cons.mp hp with rfl | hpt
      · exact hv
      · exact hd p (List.mem_cons_of_mem q hpt)
    · rcases List.mem_cons.mp hp with rfl | hpt
      · exact hd p (List.mem_cons_self _ _)
      · exact ih (fun r hr => hd r (List.mem_cons_of_mem q hr)) p hpt

/-- Every entry of the `song_stats` dict satisfies any property that
every built record satisfies. -/
theorem songStats_forall {P : String × ProcessedSong → Prop}
    (hbuild : ∀ s : SongEntry, P (s.song.getD "", buildSongRecordGenuine s))
    (songs : List SongEntry) :
    ∀ p ∈ songStatsGenuine songs, P p := by
  suffices h : ∀ (d : List (String × ProcessedSong)), (∀ p ∈ d, P p) →
      ∀ p ∈ songs.foldl (fun d s => dictInsert (s.song.getD "") (buildSongRecordGenuine s) d) d,
        P p from h [] (by intro p hp; cases hp)
  induction songs with
  | nil => intro d hd; exact hd
  | cons s t ih =>
    intro d hd
    exact ih _ (dictInsert_forall hd (hbuild s))

/-- `splitColonAux` finds the first colon. -/
theorem splitColonAux_append (a : List Char) (ha : ':' ∉ a) (r : List Char) :
    splitColonAux (a ++ ':' :: r) = some (a, r) := by
  induction a with
  | nil => simp [splitColonAux]
  | cons c t ih =>
    have hc : ¬ c = ':' := fun h => ha (h ▸ List.mem_cons_self c t)
    simp [splitColonAux, hc, ih (fun h => ha (List.mem_cons_of_mem c h))]

/-- `splitFirstColon` on a string assembled around its first colon. -/
theorem splitFirstColon_append (a b : String) (ha : ':' ∉ a.data) :
    splitFirstColon (a ++ ":" ++ b) = some (a, b) := by
  unfold splitFirstColon
  rw [show (a ++ ":" ++ b).data = a.data ++ ':' :: b.data from by
    simp [String.data_append]]
  rw [splitColonAux_append a.data ha b.data]
  rfl

/-- C1: the Length Parser (modelled from the spec) returns `None` on
absent input, parses `"23:45"` to 23.75 and `"0:30"` to 0.5, returns
`None` on unparsable strings without raising (it is a total function),
passes a bare number through unchanged, and on any string split around
its first colon whose two parts parse as integers returns
`minutes + seconds / 60`; if either part fails to parse the result is
`None`. -/
theorem length_parse_spec :
    parseLength none = none
    ∧ parseLength (some (.str "23:45")) = some (95 / 4 : Rat)
    ∧ parseLength (some (.str "0:30")) = some (1 / 2 : Rat)
    ∧ parseLength (some (.str "garbage")) = none
    ∧ parseLength (some (.num (25 / 2 : Rat))) = some (25 / 2 : Rat)
    ∧ (∀ (a b : String) (m sec : Int), ':' ∉ a.data →
        parseIntS a = some m → parseIntS b = some sec →
        parseLength (some (.str (a ++ ":" ++ b))) = some ((m : Rat) + (sec : Rat) / 60))
    ∧ ∀ (a b : String), ':' ∉ a.data →
        (parseIntS a = none ∨ parseIntS b = none) →
        parseLength (some (.str (a ++ ":" ++ b))) = none := by
  have hgen : ∀ (a b : String) (m sec : Int), ':' ∉ a.data →
      parseIntS a = some m → parseIntS b = some sec →
      parseLength (some (.str (a ++ ":" ++ b))) = some ((m : Rat) + (sec : Rat) / 60) := by
    intro a b m sec ha hm hsec
    have hdata : (a ++ ":" ++ b).data = a.data ++ ':' :: b.data := by
      simp [String.data_append]
    have hne : ¬ (a ++ ":" ++ b) = "" := by
      intro hcon
      rw [hcon] at hdata
      exact absurd hdata.symm (by simp)
    rw [show parseLength (some (.str (a ++ ":" ++ b)))
          = if (a ++ ":" ++ b) = "" then none
            else match splitFirstColon (a ++ ":" ++ b) with
              | some (mm, ss) =>
                match parseIntS mm, parseIntS ss with
                | some x, some y => some ((x : Rat) + (y : Rat) / 60)
                | _, _ => none
              | none => parseFloatS (a ++ ":" ++ b) from rfl]
    rw [if_neg hne, splitFirstColon_append a b ha]
    simp [hm, hsec]
  have hfailgen : ∀ (a b : String), ':' ∉ a.data →
      (parseIntS a = none ∨ parseIntS b = none) →
      parseLength (some (.str (a ++ ":" ++ b))) = none := by
    intro a b ha hfail
    have hdata : (a ++ ":" ++ b).data = a.data ++ ':' :: b.data := by
      simp [String.data_append]
    have hne : ¬ (a ++ ":" ++ b) = "" := by
      intro hcon
      rw [hcon] at hdata
      exact absurd hdata.symm (by simp)
    rw [show parseLength (some (.str (a ++ ":" ++ b)))
          = if (a ++ ":" ++ b) = "" then none
            else match splitFirstColon (a ++ ":" ++ b) with
              | some (mm, ss) =>
                match parseIntS mm, parseIntS ss with
                | some x, some y => some ((x : Rat) + (y : Rat) / 60)
                | _, _ => none
              | none => parseFloatS (a ++ ":" ++ b) from rfl]
    rw [if_neg hne, splitFirstColon_append a b ha]
    rcases hfail with hfa | hfb <;>
      cases hA : parseIntS a <;> cases hB : parseIntS b <;> simp_all
  refine ⟨rfl, ?_, ?_, by rfl, rfl, hgen, hfailgen⟩
  · have h1 := hgen "23" "45" 23 45 (by decide) (by decide) (by decide)
    rw [show ("23" ++ ":" ++ "45" : String) = "23:45" from rfl] at h1
    rw [h1]
    congr 1
    norm_num
  · have h1 := hgen "0" "30" 0 30 (by decide) (by decide) (by decide)
    rw [show ("0" ++ ":" ++ "30" : String) = "0:30" from rfl] at h1
    rw [h1]
    congr 1
    norm_num

/-- Looking up after a dict assignment: the assigned key maps to the new
value, every other key is unchanged. -/
theorem lookupA_dictInsert {α : Type u} (k : String) (v : α) (d : List (String × α))
    (n : String) :
    lookupA (dictInsert k v d) n = if n = k then some v else lookupA d n := by
  induction d with
  | nil =>
    simp only [dictInsert, lookupA]
    rcases eq_or_ne n k with h | h
    · rw [if_pos h.symm, if_pos h]
    · rw [if_neg (fun hh => h hh.symm), if_neg h]
  | cons q t ih =>
    rcases eq_or_ne q.1 k with hq | hq
    · subst hq
      rw [dictInsert, if_pos rfl]
      show (if q.1 = n then some v else lookupA t n) = _
      rcases eq_or_ne n q.1 with h | h
      · rw [if_pos h.symm, if_pos h]
      · rw [if_neg (fun hh => h hh.symm), if_neg h]
        show _ = if q.1 = n then some q.2 else lookupA t n
        rw [if_neg (fun hh => h hh.symm)]
    · rw [dictInsert, if_neg hq]
      show (if q.1 = n then some q.2 else lookupA (dictInsert k v t) n) = _
      rcases eq_or_ne q.1 n with hn | hn
      · rw [if_pos hn, if_neg (fun hh : n = k => hq (hn.trans hh))]
        show _ = if q.1 = n then some q.2 else lookupA t n
        rw [if_pos hn]
      · rw [if_neg hn, ih]
        rcases eq_or_ne n k with h | h
        · rw [if_pos h, if_pos h]
        · rw [if_neg h, if_neg h]
          show _ = if q.1 = n then some q.2 else lookupA t n
          rw [if_neg hn]

/-- Keys after a dict assignment: unchanged if the key was present,
appended otherwise. -/
theorem keysOf_dictInsert {α : Type u} (k : String) (v : α) (d : List (String × α)) :
    keysOf (dictInsert k v d) = if k ∈ keysOf d then keysOf d else keysOf d ++ [k] := by
  induction d with
  | nil => simp [dictInsert, keysOf]
  | cons q t ih =>
    rcases eq_or_ne q.1 k with hq | hq
    · subst hq
      rw [dictInsert, if_pos rfl]
      simp [keysOf]
    · rw [dictInsert, if_neg hq]
      have hcons : keysOf (q :: dictInsert k v t) = q.1 :: keysOf (dictInsert k v t) := rfl
      have hcons2 : keysOf (q :: t) = q.1 :: keysOf t := rfl
      rw [hcons, ih, hcons2]
      by_cases hk : k ∈ keysOf t
      · rw [if_pos hk, if_pos (List.mem_cons_of_mem _ hk)]
      · rw [if_neg hk, if_neg (by
          intro hcon
          rcases List.mem_cons.mp hcon with h | h
          · exact hq h.symm
          · exact hk h)]
        simp

/-- A dict assignment keeps nodup keys. -/
theorem nodup_keysOf_dictInsert {α : Type u} {k : String} {v : α} {d : List (String × α)}
    (h : (keysOf d).Nodup) : (keysOf (dictInsert k v d)).Nodup := by
  rw [keysOf_dictInsert]
  split_ifs with hk
  · exact h
  · rw [List.nodup_append]
    refine ⟨h, List.nodup_singleton k, ?_⟩
    intro a ha hb
    rw [List.mem_singleton] at hb
    exact hk (hb ▸ ha)

/-- A dict assignment grows the dict iff the key is new. -/
theorem length_dictInsert {α : Type u} (k : String) (v : α) (d : List (String × α)) :
    (dictInsert k v d).length = if k ∈ keysOf d then d.length else d.length + 1 := by
  induction d with
  | nil => simp [dictInsert, keysOf]
  | cons q t ih =>
    rcases eq_or_ne q.1 k with hq | hq
    · subst hq
      rw [dictInsert, if_pos rfl]
      simp [keysOf]
    · rw [dictInsert, if_neg hq]
      show (q :: dictInsert k v t).length = _
      rw [List.length_cons, ih]
      have hmem : (k ∈ keysOf (q :: t)) ↔ (k ∈ keysOf t) := by
        rw [show keysOf (q :: t) = q.1 :: keysOf t from rfl, List.mem_cons]
        exact ⟨fun hh => hh.resolve_left (fun hh' => hq hh'.symm), Or.inr⟩
      by_cases hk : k ∈ keysOf t
      · rw [if_pos hk, if_pos (hmem.mpr hk), List.length_cons]
      · rw [if_neg hk, if_neg (fun hh => hk (hmem.mp hh)), List.length_cons]

/-- A key is present iff lookup succeeds. -/
theorem lookupA_isSome_iff {α : Type u} (d : List (String × α)) (n : String) :
    (lookupA d n).isSome = true ↔ n ∈ keysOf d := by
  induction d with
  | nil => simp [lookupA, keysOf]
  | cons q t ih =>
    rw [show lookupA (q :: t) n = if q.1 = n then some q.2 else lookupA t n from rfl,
      show keysOf (q :: t) = q.1 :: keysOf t from rfl, List.mem_cons]
    split_ifs with h
    · exact iff_of_true rfl (Or.inl h.symm)
    · rw [ih]
      constructor
      · exact Or.inr
      · rintro (rfl | hm)
        · exact absurd rfl h
        · exact hm

/-- Unfolding the `song_stats` fold over a catalog extended on the right. -/
theorem songStats_append (l : List SongEntry) (s : SongEntry) :
    songStatsGenuine (l ++ [s])
      = dictInsert (s.song.getD "") (buildSongRecordGenuine s) (songStatsGenuine l) := by
  simp [songStatsGenuine, List.foldl_append]

/-- Looking a name up in the finished `song_stats` dict yields the
record built from the last catalog entry carrying that name. -/
theorem lookupA_songStats (songs : List SongEntry) (n : String) :
    lookupA (songStatsGenuine songs) n
      = ((songs.filter (fun s => s.song.getD "" == n)).getLast?).map buildSongRecordGenuine := by
  induction songs using List.reverseRecOn with
  | nil => rfl
  | append_singleton l s ih =>
    rw [songStats_append, lookupA_dictInsert, List.filter_append]
    by_cases hks : (s.song.getD "" == n) = true
    · have hf : List.filter (fun s => s.song.getD "" == n) [s] = [s] := by
        simp [List.filter_cons, hks]
      rw [hf, List.getLast?_concat, if_pos (beq_iff_eq.mp hks).symm]
      rfl
    · have hf : List.filter (fun s => s.song.getD "" == n) [s] = [] := by
        simp [List.filter_cons, hks]
      rw [hf, List.append_nil,
        if_neg (fun hh : n = s.song.getD "" => hks (beq_iff_eq.mpr hh.symm))]
      exact ih

/-- The finished `song_stats` dict has pairwise distinct keys. -/
theorem nodup_keys_songStats (songs : List SongEntry) :
    (keysOf (songStatsGenuine songs)).Nodup := by
  induction songs using List.reverseRecOn with
  | nil => exact List.nodup_nil
  | append_singleton l s ih =>
    rw [songStats_append]
    exact nodup_keysOf_dictInsert ih

/-- The keys of the finished `song_stats` dict are exactly the catalog's
song names. -/
theorem mem_keys_songStats (songs : List SongEntry) (n : String) :
    n ∈ keysOf (songStatsGenuine songs) ↔ n ∈ songs.map (fun s => s.song.getD "") := by
  rw [← lookupA_isSome_iff, lookupA_songStats]
  have hmap : ∀ (o : Option SongEntry),
      (o.map buildSongRecordGenuine).isSome = o.isSome := by
    intro o; cases o <;> rfl
  rw [hmap, List.getLast?_isSome]
  constructor
  · intro hne
    rcases List.exists_mem_of_ne_nil _ hne with ⟨s, hs⟩
    rw [List.mem_filter] at hs
    exact List.mem_map.mpr ⟨s, hs.1, beq_iff_eq.mp hs.2⟩
  · intro hm hcon
    rcases List.mem_map.mp hm with ⟨s, hs, rfl⟩
    have hmem : s ∈ songs.filter (fun s' => s'.song.getD "" == s.song.getD "") :=
      List.mem_filter.mpr ⟨hs, beq_iff_eq.mpr rfl⟩
    rw [hcon] at hmem
    cases hmem

/-- Every entry's record name equals its key. -/
theorem songStats_name_eq_key (songs : List SongEntry) :
    ∀ p ∈ songStatsGenuine songs, (Prod.snd p).name = p.1 :=
  songStats_forall (P := fun p => (Prod.snd p).name = p.1) (fun _ => rfl) songs

/-- Searching the values list by name agrees with the dict lookup, when
every record's name equals its key. -/
theorem find?_values_eq_lookupA (d : List (String × ProcessedSong)) (n : String)
    (inv : ∀ p ∈ d, (Prod.snd p).name = p.1) :
    (d.map Prod.snd).find? (fun r => r.name == n) = lookupA d n := by
  induction d with
  | nil => rfl
  | cons q t ih =>
    have hq : q.2.name = q.1 := inv q (List.mem_cons_self _ _)
    rw [List.map_cons,
      show lookupA (q :: t) n = if q.1 = n then some q.2 else lookupA t n from rfl]
    rcases eq_or_ne q.1 n with h | h
    · rw [List.find?_cons_of_pos _ (by rw [hq, h]; exact beq_iff_eq.mpr rfl), if_pos h]
    · rw [List.find?_cons_of_neg _ (by rw [hq]; exact fun hc => h (beq_iff_eq.mp hc)),
        if_neg h]
      exact ih (fun p hp => inv p (List.mem_cons_of_mem _ hp))

/-- C10: the processed `songs` list has at most one record per name
(`Nodup` on names); searching it for a name finds exactly the record
built from the **last** catalog entry with that name; and
`metadata.totalSongs` counts distinct names, not input entries. -/
theorem songs_dedup_last_wins (songs : List SongEntry) (shows : List Show)
    (today now : String) :
    ((create_processed_data_genuine songs shows today now).songs.map
        (fun r => r.name)).Nodup
    ∧ (∀ n : String,
        (create_processed_data_genuine songs shows today now).songs.find?
            (fun r => r.name == n)
          = ((songs.filter (fun s => s.song.getD "" == n)).getLast?).map
              buildSongRecordGenuine)
    ∧ (create_processed_data_genuine songs shows today now).metadata.totalSongs
        = ((songs.map (fun s => s.song.getD "")).dedup).length := by
  have hinv := songStats_name_eq_key songs
  refine ⟨?_, ?_, ?_⟩
  · have hmapeq : (create_processed_data_genuine songs shows today now).songs.map
        (fun r => r.name) = keysOf (songStatsGenuine songs) := by
      show ((songStatsGenuine songs).map Prod.snd).map (fun r => r.name) = _
      rw [List.map_map]
      exact List.map_congr_left hinv
    rw [hmapeq]
    exact nodup_keys_songStats songs
  · intro n
    show ((songStatsGenuine songs).map Prod.snd).find? (fun r => r.name == n) = _
    rw [find?_values_eq_lookupA _ n hinv, lookupA_songStats]
  · show (songStatsGenuine songs).length = _
    have h1 : (songStatsGenuine songs).length = (keysOf (songStatsGenuine songs)).length :=
      (List.length_map _ _).symm
    rw [h1, ← List.toFinset_card_of_nodup (nodup_keys_songStats songs)]
    have h3 : (keysOf (songStatsGenuine songs)).toFinset
        = (songs.map (fun s => s.song.getD "")).toFinset := by
      ext x
      simp only [List.mem_toFinset]
      exact mem_keys_songStats songs x
    rw [h3, List.card_toFinset]

/-- C1 witness: the generic colon law applied to `"2:30"`. -/
theorem length_parse_spec_witness :
    (':' ∉ "2".data) ∧ parseIntS "2" = some 2 ∧ parseIntS "30" = some 30
    ∧ parseLength (some (.str ("2" ++ ":" ++ "30")))
        = some ((2 : Rat) + (30 : Rat) / 60) :=
  ⟨by decide, by decide, by decide,
    length_parse_spec.2.2.2.2.2.1 "2" "30" 2 30 (by decide) (by decide) (by decide)⟩

end PhishData
